import Mathlib

/-!
Verification of the `Bytes` value type of `src/src/bytes.rs` (crate `tl`).

The Rust code is shallowly embedded as follows:

* Byte memory is a total function `Mem := Nat → Nat` from addresses to byte
  values; `readMem m p n` is the content of the region `[p, p+n)` and models
  `std::slice::from_raw_parts(p, n)` dereferenced to its byte sequence, while
  `writeMem m p data` stores a byte list at `p`.
* A Rust `&[u8]` is a `Slice` (pointer + length); a `&str` is a `Str`
  (pointer + length of its UTF-8 bytes), and `Str.as_bytes` is the
  pointer-preserving `str::as_bytes`.
* `BytesInner` and `Bytes` mirror the Rust types; the `u32` length fields
  become `Nat`s, and every `as u32` cast in the source becomes an explicit
  `% 2^32`.  The `PhantomData` marker field of `Bytes` is zero-sized and
  carries no data, so it is omitted.
* The allocator is a `Heap`: the byte memory, a frontier `bound` below which
  all live memory (owned or external) resides, and the list `allocs` of live
  boxed allocations `(pointer, length)`.  `Heap.allocCopy` models allocating
  a fresh `Box<[u8]>` holding given bytes; `Heap.free` models dropping a
  `Box<[u8]>` reconstructed from raw parts.
* Stateful operations (`clone`, `set`, drop) pass the `Heap` explicitly.
-/

namespace TlBytes

/-- Byte memory: the byte stored at each address. -/
abbrev Mem := Nat → Nat

/-- `2^32 - 1`, the Rust constant `u32::MAX as usize` used by `Bytes::set`. -/
def u32Max : Nat := 2 ^ 32 - 1

/-- Content of the memory region `[p, p + n)`: the dereferenced byte sequence
of `std::slice::from_raw_parts(p, n)` (the body of `compact_bytes_to_slice`). -/
def readMem (m : Mem) (p : Nat) : Nat → List Nat
  | 0 => []
  | n + 1 => m p :: readMem m (p + 1) n

/-- Store the byte list `data` at address `p`, leaving all other addresses
unchanged. -/
def writeMem (m : Mem) (p : Nat) : List Nat → Mem
  | [] => m
  | c :: cs => writeMem (fun a => if a = p then c else m a) (p + 1) cs

/-- A Rust `&[u8]`: raw pointer plus (usize) length. -/
structure Slice where
  ptr : Nat
  len : Nat
deriving DecidableEq

/-- A Rust `&str`: raw pointer plus byte length of its UTF-8 contents. -/
structure Str where
  ptr : Nat
  len : Nat
deriving DecidableEq

/-- `str::as_bytes`: the same pointer and length viewed as a byte slice. -/
def Str.as_bytes (s : Str) : Slice := ⟨s.ptr, s.len⟩

/-- The inner data of `Bytes` (`enum BytesInner`): a raw pointer and a `u32`
length, tagged `Borrowed` or `Owned`.  Lengths are `Nat`s here; the
`u32`-ness of the field shows up as `% 2^32` at each `as u32` cast site. -/
inductive BytesInner where
  | Borrowed (ptr : Nat) (len : Nat)
  | Owned (ptr : Nat) (len : Nat)
deriving DecidableEq

/-- `struct Bytes<'a>` — the `PhantomData<&'a [u8]>` marker is zero-sized and
omitted. -/
structure Bytes where
  data : BytesInner
deriving DecidableEq

/-- `impl From<&[u8]> for Bytes`: stores `s.as_ptr()` and `s.len() as u32`
(a truncating cast), discriminant `Borrowed`. -/
def Bytes.from_slice (s : Slice) : Bytes :=
  ⟨.Borrowed s.ptr (s.len % 2 ^ 32)⟩

/-- `impl From<&str> for Bytes`: delegates to the byte-slice conversion. -/
def Bytes.from_str (s : Str) : Bytes :=
  Bytes.from_slice s.as_bytes

/-- `Bytes::as_bytes`: dereference the stored pointer/length to the content
byte sequence, for either variant. -/
def Bytes.as_bytes (m : Mem) (b : Bytes) : List Nat :=
  match b.data with
  | .Borrowed p l => readMem m p l
  | .Owned p l => readMem m p l

/-- `Bytes::as_bytes_borrowed`: the content for `Borrowed` values, `None`
for `Owned` values. -/
def Bytes.as_bytes_borrowed (m : Mem) (b : Bytes) : Option (List Nat) :=
  match b.data with
  | .Borrowed p l => some (readMem m p l)
  | .Owned _ _ => none

/-- `Bytes::as_ptr`: the stored raw pointer, for either variant. -/
def Bytes.as_ptr (b : Bytes) : Nat :=
  match b.data with
  | .Borrowed p _ => p
  | .Owned p _ => p

/-- The stored length field, for either variant. -/
def Bytes.len (b : Bytes) : Nat :=
  match b.data with
  | .Borrowed _ l => l
  | .Owned _ l => l

/-- Whether the discriminant is `Borrowed`. -/
def Bytes.isBorrowed (b : Bytes) : Bool :=
  match b.data with
  | .Borrowed _ _ => true
  | .Owned _ _ => false

/-- Whether the discriminant is `Owned`. -/
def Bytes.isOwned (b : Bytes) : Bool :=
  match b.data with
  | .Borrowed _ _ => false
  | .Owned _ _ => true

/-- `impl PartialEq for Bytes`: `self.as_bytes() == other.as_bytes()`. -/
def Bytes.eq (m : Mem) (a b : Bytes) : Bool :=
  Bytes.as_bytes m a == Bytes.as_bytes m b

/-- `impl Hash for Bytes`: feed `self.as_bytes()` to the hasher.  The hasher
is abstracted as an arbitrary function from the fed byte sequence to a hash
code, so that equality of hashes for every hasher is exactly "the hash
depends only on the content bytes". -/
def Bytes.hash (m : Mem) (hasher : List Nat → Nat) (b : Bytes) : Nat :=
  hasher (Bytes.as_bytes m b)

/-- The `#[derive(PartialOrd, Ord)]` comparison of `BytesInner`: variant
discriminant first (`Borrowed` precedes `Owned`), then the raw pointer
field, then the length field.  It never dereferences the pointer. -/
def BytesInner.cmp : BytesInner → BytesInner → Ordering
  | .Borrowed p₁ l₁, .Borrowed p₂ l₂ => (compare p₁ p₂).then (compare l₁ l₂)
  | .Borrowed _ _, .Owned _ _ => .lt
  | .Owned _ _, .Borrowed _ _ => .gt
  | .Owned p₁ l₁, .Owned p₂ l₂ => (compare p₁ p₂).then (compare l₁ l₂)

/-- The `#[derive(PartialOrd, Ord)]` comparison of `Bytes`: compares the
`data` field (the `PhantomData` field always compares equal). -/
def Bytes.cmp (a b : Bytes) : Ordering :=
  BytesInner.cmp a.data b.data

/-- The `<` operator of `Bytes`, from the derived `PartialOrd`. -/
def Bytes.lt (a b : Bytes) : Bool :=
  Bytes.cmp a b == .lt

/-- Lexicographic byte-wise order on byte sequences.  Modelled from the
spec's words ("byte-wise equality, lexicographic ordering"): this is the
order the spec claims `Bytes` comparison follows; it matches Rust's
`Ord for [u8]`. -/
def specLexLt : List Nat → List Nat → Bool
  | [], [] => false
  | [], _ :: _ => true
  | _ :: _, [] => false
  | x :: xs, y :: ys => if x < y then true else if x = y then specLexLt xs ys else false

/-- The allocator state: byte memory, a frontier `bound` below which all
live memory resides (fresh allocations are handed out at the frontier), and
the list of live boxed allocations as `(pointer, length)` pairs. -/
structure Heap where
  mem : Mem
  bound : Nat
  allocs : List (Nat × Nat)

/-- Allocate a fresh `Box<[u8]>` holding `data`: the new block starts at the
frontier, the bytes are written there, and the block is recorded live. -/
def Heap.allocCopy (h : Heap) (data : List Nat) : Nat × Heap :=
  (h.bound,
   ⟨writeMem h.mem h.bound data, h.bound + data.length,
    (h.bound, data.length) :: h.allocs⟩)

/-- Drop of a `Box<[u8]>` reconstructed from raw parts `(p, l)`
(`Vec::from_raw_parts(p, l, l).into_boxed_slice()` immediately dropped):
the block `(p, l)` ceases to be live.  Freeing a block that is not live is
the model's image of a double free. -/
def Heap.free (h : Heap) (p l : Nat) : Heap :=
  { h with allocs := h.allocs.erase (p, l) }

/-- `impl Drop for BytesInner`: deallocate only the `Owned` variant. -/
def BytesInner.drop (h : Heap) : BytesInner → Heap
  | .Borrowed _ _ => h
  | .Owned p l => h.free p l

/-- Dropping a `Bytes` value drops its inner data. -/
def Bytes.drop (h : Heap) (b : Bytes) : Heap :=
  BytesInner.drop h b.data

/-- `clone_compact_bytes_parts(ptr, len)`, exactly as written in the source:
`boxed_slice_to_compact_parts(compact_bytes_to_boxed_slice(ptr, len).clone())`.
`compact_bytes_to_boxed_slice` reconstructs a `Box<[u8]>` that owns the
ORIGINAL block `(p, l)`; `.clone()` allocates a fresh copy of its bytes;
`boxed_slice_to_compact_parts` wraps the COPY in `ManuallyDrop` and returns
its raw parts (with a `len as u32` cast).  The reconstructed original box is
a temporary and is dropped at the end of the expression, freeing `(p, l)`. -/
def clone_compact_bytes_parts (h : Heap) (p l : Nat) : (Nat × Nat) × Heap :=
  let content := readMem h.mem p l
  let a := h.allocCopy content
  ((a.1, content.length % 2 ^ 32), a.2.free p l)

/-- `impl Clone for Bytes`: `Borrowed` re-borrows the same memory via
`Bytes::from(compact_bytes_to_slice(ptr, len))`; `Owned` goes through
`clone_compact_bytes_parts`. -/
def Bytes.clone (h : Heap) (b : Bytes) : Bytes × Heap :=
  match b.data with
  | .Borrowed p l => (Bytes.from_slice ⟨p, l⟩, h)
  | .Owned p l =>
    let r := clone_compact_bytes_parts h p l
    (⟨.Owned r.1.1 r.1.2⟩, r.2)

/-- `pub enum SetBytesError`. -/
inductive SetBytesError where
  | LengthOverflow
deriving DecidableEq

/-- `<B as Into<Box<[u8]>>>::into(data)`: the new content is materialised
as a fresh boxed allocation holding the byte list `v`. -/
def boxFrom (h : Heap) (v : List Nat) : Nat × Heap :=
  h.allocCopy v

/-- `boxed_slice_to_compact_parts`: wrap the box in `ManuallyDrop` (so it is
not freed) and return its pointer and `len as u32`. -/
def boxed_slice_to_compact_parts (p len : Nat) : Nat × Nat :=
  (p, len % 2 ^ 32)

/-- `Bytes::set_unchecked`: convert the new content into a box, take its
compact parts, and assign `self.data = BytesInner::Owned(ptr, len)` — the
assignment drops the previous `BytesInner`, releasing prior `Owned`
storage.  Returns the updated value and heap. -/
def Bytes.set_unchecked (h : Heap) (b : Bytes) (v : List Nat) : Bytes × Heap :=
  let bx := boxFrom h v
  let parts := boxed_slice_to_compact_parts bx.1 v.length
  (⟨.Owned parts.1 parts.2⟩, BytesInner.drop bx.2 b.data)

/-- `Bytes::set`: materialise the box, fail with `LengthOverflow` when its
length exceeds `u32::MAX` (the early return drops the just-made box and
leaves `self` untouched), otherwise delegate to `set_unchecked`.  The
allocator is deterministic, so `set_unchecked h b v` re-creates the very
box `boxFrom h v` that `set` materialised: heap threading agrees with the
source, which converts once and passes the box along. -/
def Bytes.set (h : Heap) (b : Bytes) (v : List Nat) :
    Except SetBytesError Unit × Bytes × Heap :=
  let bx := boxFrom h v
  if v.length > u32Max then
    (.error .LengthOverflow, b, Heap.free bx.2 bx.1 v.length)
  else
    let r := Bytes.set_unchecked h b v
    (.ok (), r.1, r.2)

/-- A `Bytes` value whose referenced region lies below the heap's frontier:
the validity every live Rust value enjoys (its memory exists and was not
handed out as a fresh allocation). -/
abbrev Bytes.inBounds (h : Heap) (b : Bytes) : Prop :=
  b.as_ptr + b.len ≤ h.bound

/-- The `u32` range invariant of the stored length field. -/
abbrev Bytes.lenWf (b : Bytes) : Prop :=
  b.len < 2 ^ 32

/-! ### Basic lemmas about the memory model -/

theorem readMem_length (m : Mem) (p n : Nat) : (readMem m p n).length = n := by
  induction n generalizing p with
  | zero => rfl
  | succ k ih => simp [readMem, ih]

theorem writeMem_lt (m : Mem) (p : Nat) (l : List Nat) (a : Nat) (h : a < p) :
    writeMem m p l a = m a := by
  induction l generalizing m p with
  | nil => rfl
  | cons c cs ih =>
    simp only [writeMem]
    rw [ih _ _ (Nat.lt_succ_of_lt h)]
    simp [Nat.ne_of_lt h]

theorem readMem_writeMem (m : Mem) (p : Nat) (l : List Nat) :
    readMem (writeMem m p l) p l.length = l := by
  induction l generalizing m p with
  | nil => rfl
  | cons c cs ih =>
    simp only [List.length_cons, readMem, writeMem]
    rw [writeMem_lt _ _ _ _ (Nat.lt_succ_self p), ih]
    simp

theorem readMem_writeMem_of_le (m : Mem) (p : Nat) (l : List Nat) (q n : Nat)
    (h : q + n ≤ p) : readMem (writeMem m p l) q n = readMem m q n := by
  induction n generalizing q with
  | zero => rfl
  | succ k ih =>
    simp only [readMem]
    rw [writeMem_lt _ _ _ _ (by omega), ih _ (by omega)]

theorem as_bytes_writeMem (m : Mem) (p : Nat) (l : List Nat) (b : Bytes)
    (hb : b.as_ptr + b.len ≤ p) :
    Bytes.as_bytes (writeMem m p l) b = Bytes.as_bytes m b := by
  rcases b with ⟨d⟩
  cases d <;>
    exact readMem_writeMem_of_le m p l _ _ hb

theorem drop_mem (h : Heap) (d : BytesInner) : (BytesInner.drop h d).mem = h.mem := by
  cases d <;> rfl

theorem drop_bound (h : Heap) (d : BytesInner) : (BytesInner.drop h d).bound = h.bound := by
  cases d <;> rfl

/-! ### Claim theorems -/

/-- C5: for every two Bytes values a and b, `a == b` holds if and only if
`a.as_bytes() == b.as_bytes()`, irrespective of variant and of the stored
addresses (the equivalence is proved for all memories, pointers, lengths
and variants). -/
theorem C5_eq_iff_content_eq (m : Mem) (a b : Bytes) :
    Bytes.eq m a b = true ↔ Bytes.as_bytes m a = Bytes.as_bytes m b := by
  simp [Bytes.eq]

/-- C7: hashing two content-equal Bytes values (in particular of differing
variants) with the same hasher state produces equal hash codes, for every
hasher, because the hash is computed over the content bytes only. -/
theorem C7_hash_content_only (m : Mem) (hasher : List Nat → Nat) (a b : Bytes)
    (hab : Bytes.as_bytes m a = Bytes.as_bytes m b) :
    Bytes.hash m hasher a = Bytes.hash m hasher b := by
  simp [Bytes.hash, hab]

/-- Witness for C7: a Borrowed and an Owned value at different addresses
with equal content hash equally. -/
theorem C7_hash_content_only_witness :
    Bytes.as_bytes (fun _ => 9) (Bytes.mk (BytesInner.Borrowed 0 2))
      = Bytes.as_bytes (fun _ => 9) (Bytes.mk (BytesInner.Owned 5 2))
    ∧ Bytes.hash (fun _ => 9) List.sum (Bytes.mk (BytesInner.Borrowed 0 2))
      = Bytes.hash (fun _ => 9) List.sum (Bytes.mk (BytesInner.Owned 5 2)) :=
  ⟨by decide, C7_hash_content_only _ _ _ _ (by decide)⟩

/-- C8: `as_bytes_borrowed` returns `some` of the full content exactly when
the value is Borrowed, and `none` exactly when the value is Owned. -/
theorem C8_as_bytes_borrowed_iff_variant (m : Mem) (b : Bytes) :
    (Bytes.as_bytes_borrowed m b = some (Bytes.as_bytes m b) ↔ b.isBorrowed = true)
    ∧ (Bytes.as_bytes_borrowed m b = none ↔ b.isOwned = true) := by
  rcases b with ⟨d⟩
  cases d <;>
    simp [Bytes.as_bytes_borrowed, Bytes.as_bytes, Bytes.isBorrowed, Bytes.isOwned]

/-- C10: `Bytes::from(&str)` is exactly `Bytes::from(s.as_bytes())`: a
Borrowed value whose content is the slice of UTF-8 bytes of `s`, subject to
the same `len as u32` truncating cast as byte-slice construction. -/
theorem C10_from_str_is_from_slice (m : Mem) (s : Str) :
    Bytes.from_str s = Bytes.from_slice s.as_bytes
    ∧ (Bytes.from_str s).isBorrowed = true
    ∧ Bytes.as_bytes m (Bytes.from_str s) = readMem m s.ptr (s.len % 2 ^ 32) :=
  ⟨rfl, rfl, rfl⟩

/-- C3 (counterexample): for the all-zero memory and a slice of length
`2^32` at address 0, `from_borrowed` truncates the length to 0 (the
`as u32` cast), so `as_bytes` does not return the original sequence. -/
theorem C3_overflowing_slice_truncated :
    ¬ (Bytes.as_bytes (fun _ => 0) (Bytes.from_slice ⟨0, 2 ^ 32⟩)
        = readMem (fun _ => 0) 0 (2 ^ 32)) := by
  intro h
  have hl := congrArg List.length h
  have h0 : Bytes.as_bytes (fun _ => 0) (Bytes.from_slice ⟨0, 2 ^ 32⟩)
      = readMem (fun _ => 0) 0 (2 ^ 32 % 2 ^ 32) := rfl
  rw [h0, readMem_length, readMem_length] at hl
  omega

/-- C3 (amended): for every byte slice of length at most `2^32 - 1`,
borrowing it and calling `as_bytes` returns exactly its byte sequence. -/
theorem C3_from_slice_as_bytes (m : Mem) (p n : Nat) (hn : n ≤ u32Max) :
    Bytes.as_bytes m (Bytes.from_slice ⟨p, n⟩) = readMem m p n := by
  have h0 : Bytes.as_bytes m (Bytes.from_slice ⟨p, n⟩) = readMem m p (n % 2 ^ 32) := rfl
  rw [h0, Nat.mod_eq_of_lt (Nat.lt_of_le_of_lt hn (by decide))]

/-- Witness for the amended C3: a concrete length-2 slice round-trips. -/
theorem C3_from_slice_as_bytes_witness :
    2 ≤ u32Max
    ∧ Bytes.as_bytes (fun a => a) (Bytes.from_slice ⟨5, 2⟩) = readMem (fun a => a) 5 2 :=
  ⟨by decide, C3_from_slice_as_bytes (fun a => a) 5 2 (by decide)⟩

/-- C9: cloning a Borrowed value (with its length in `u32` range, as every
Rust value's is) yields the very same Borrowed value — same address, same
length — and leaves the heap unchanged (no new allocation). -/
theorem C9_clone_borrowed_shares_memory (h : Heap) (p l : Nat) (hl : l < 2 ^ 32) :
    Bytes.clone h (Bytes.mk (BytesInner.Borrowed p l))
      = (Bytes.mk (BytesInner.Borrowed p l), h)
    ∧ (Bytes.clone h (Bytes.mk (BytesInner.Borrowed p l))).1.as_ptr
        = Bytes.as_ptr (Bytes.mk (BytesInner.Borrowed p l)) := by
  have h1 : Bytes.clone h (Bytes.mk (BytesInner.Borrowed p l))
      = (Bytes.from_slice ⟨p, l⟩, h) := rfl
  rw [h1]
  simp [Bytes.from_slice, Bytes.as_ptr, Nat.mod_eq_of_lt]
  exact hl

/-- Witness for C9 at a concrete Borrowed value and heap. -/
theorem C9_clone_borrowed_shares_memory_witness :
    2 < 2 ^ 32
    ∧ (Bytes.clone (Heap.mk (fun _ => 0) 0 []) (Bytes.mk (BytesInner.Borrowed 3 2))
         = (Bytes.mk (BytesInner.Borrowed 3 2), Heap.mk (fun _ => 0) 0 [])
       ∧ (Bytes.clone (Heap.mk (fun _ => 0) 0 []) (Bytes.mk (BytesInner.Borrowed 3 2))).1.as_ptr
           = Bytes.as_ptr (Bytes.mk (BytesInner.Borrowed 3 2))) :=
  ⟨by decide, C9_clone_borrowed_shares_memory (Heap.mk (fun _ => 0) 0 []) 3 2 (by decide)⟩

/-- C1 (code bug): the derived ordering of `Bytes` compares discriminant,
then stored pointer, then length — never the content.  Concretely, with
`[1,2]` stored at address 8 and `[1,3]` at address 0, the spec's example
`from_borrowed([1,2]) < from_borrowed([1,3])` fails (the code orders them
the other way round because 8 > 0), and a Borrowed and an Owned value with
identical (empty) content compare strictly, on the discriminant alone. -/
theorem C1_derived_ord_uses_address_not_content :
    Bytes.as_bytes
        (fun a => if a = 0 then 1 else if a = 1 then 3 else
                  if a = 8 then 1 else if a = 9 then 2 else 0)
        (Bytes.from_slice ⟨8, 2⟩) = [1, 2]
    ∧ Bytes.as_bytes
        (fun a => if a = 0 then 1 else if a = 1 then 3 else
                  if a = 8 then 1 else if a = 9 then 2 else 0)
        (Bytes.from_slice ⟨0, 2⟩) = [1, 3]
    ∧ specLexLt [1, 2] [1, 3] = true
    ∧ Bytes.lt (Bytes.from_slice ⟨8, 2⟩) (Bytes.from_slice ⟨0, 2⟩) = false
    ∧ Bytes.lt (Bytes.from_slice ⟨0, 2⟩) (Bytes.from_slice ⟨8, 2⟩) = true
    ∧ Bytes.as_bytes (fun _ => 0) (Bytes.mk (BytesInner.Borrowed 4 0))
        = Bytes.as_bytes (fun _ => 0) (Bytes.mk (BytesInner.Owned 4 0))
    ∧ Bytes.lt (Bytes.mk (BytesInner.Borrowed 4 0)) (Bytes.mk (BytesInner.Owned 4 0)) = true := by
  decide

/-- C2 (code bug): cloning an Owned value frees the source's own
allocation.  With live allocation `(0, 1)` holding byte 7 and the Owned
value over it, `clone` copies the content into a fresh block `(1, 1)` —
but the temporary box reconstructed from the source's raw parts is dropped,
so after `clone` the source allocation `(0, 1)` is no longer live, and the
later drop of the source value finds nothing left to release (in Rust: the
buffer is freed twice). -/
theorem C2_clone_frees_source_allocation :
    ((0, 1) ∈ (Heap.mk (fun _ => 7) 1 [(0, 1)]).allocs)
    ∧ (Bytes.clone (Heap.mk (fun _ => 7) 1 [(0, 1)]) (Bytes.mk (BytesInner.Owned 0 1))).1
        = Bytes.mk (BytesInner.Owned 1 1)
    ∧ Bytes.as_bytes
        (Bytes.clone (Heap.mk (fun _ => 7) 1 [(0, 1)]) (Bytes.mk (BytesInner.Owned 0 1))).2.mem
        (Bytes.clone (Heap.mk (fun _ => 7) 1 [(0, 1)]) (Bytes.mk (BytesInner.Owned 0 1))).1 = [7]
    ∧ ((0, 1) ∉ (Bytes.clone (Heap.mk (fun _ => 7) 1 [(0, 1)]) (Bytes.mk (BytesInner.Owned 0 1))).2.allocs)
    ∧ (Bytes.drop
         (Bytes.clone (Heap.mk (fun _ => 7) 1 [(0, 1)]) (Bytes.mk (BytesInner.Owned 0 1))).2
         (Bytes.mk (BytesInner.Owned 0 1))).allocs
        = (Bytes.clone (Heap.mk (fun _ => 7) 1 [(0, 1)]) (Bytes.mk (BytesInner.Owned 0 1))).2.allocs := by
  decide

/-- C4: `set` fails with `LengthOverflow` exactly when the new content is
longer than `2^32 - 1` bytes, and on failure the value — its variant,
address and length — and its readable content are left unchanged. -/
theorem C4_set_overflow_guard (h : Heap) (b : Bytes) (v : List Nat)
    (hb : Bytes.inBounds h b) :
    ((Bytes.set h b v).1 = .error .LengthOverflow ↔ u32Max < v.length)
    ∧ (u32Max < v.length →
        (Bytes.set h b v).2.1 = b
        ∧ Bytes.as_bytes (Bytes.set h b v).2.2.mem b = Bytes.as_bytes h.mem b) := by
  by_cases hl : v.length > u32Max
  · refine ⟨?_, fun _ => ⟨by simp [Bytes.set, hl], ?_⟩⟩
    · have h1 : (Bytes.set h b v).1 = .error .LengthOverflow := by
        simp [Bytes.set, hl]
      simp [h1, gt_iff_lt.mp hl]
    · have hm : (Bytes.set h b v).2.2.mem = writeMem h.mem h.bound v := by
        simp [Bytes.set, hl, boxFrom, Heap.allocCopy, Heap.free]
      rw [hm]
      exact as_bytes_writeMem _ _ _ _ hb
  · constructor
    · have h1 : (Bytes.set h b v).1 = .ok () := by simp [Bytes.set, hl]
      simp [h1]
      exact not_lt.mp hl
    · intro hc
      exact absurd hc hl

/-- Witness for C4: at a small in-bounds Borrowed value and content `[9,9]`
the guard does not fire and `set` succeeds. -/
theorem C4_set_overflow_guard_witness :
    Bytes.inBounds (Heap.mk (fun _ => 3) 4 []) (Bytes.mk (BytesInner.Borrowed 1 2))
    ∧ (((Bytes.set (Heap.mk (fun _ => 3) 4 []) (Bytes.mk (BytesInner.Borrowed 1 2)) [9, 9]).1
          = .error .LengthOverflow ↔ u32Max < ([9, 9] : List Nat).length)
       ∧ (u32Max < ([9, 9] : List Nat).length →
           (Bytes.set (Heap.mk (fun _ => 3) 4 []) (Bytes.mk (BytesInner.Borrowed 1 2)) [9, 9]).2.1
             = Bytes.mk (BytesInner.Borrowed 1 2)
           ∧ Bytes.as_bytes
               (Bytes.set (Heap.mk (fun _ => 3) 4 []) (Bytes.mk (BytesInner.Borrowed 1 2)) [9, 9]).2.2.mem
               (Bytes.mk (BytesInner.Borrowed 1 2))
             = Bytes.as_bytes (Heap.mk (fun _ => 3) 4 []).mem (Bytes.mk (BytesInner.Borrowed 1 2)))) :=
  ⟨by decide, C4_set_overflow_guard _ _ _ (by decide)⟩

/-- C6: from either starting variant, a successful `set v` (any `v` of
length at most `2^32 - 1`) succeeds, makes `as_bytes` return `v`, and makes
the discriminant Owned. -/
theorem C6_set_roundtrip (h : Heap) (b : Bytes) (v : List Nat)
    (hv : v.length ≤ u32Max) :
    (Bytes.set h b v).1 = .ok ()
    ∧ Bytes.as_bytes (Bytes.set h b v).2.2.mem (Bytes.set h b v).2.1 = v
    ∧ (Bytes.set h b v).2.1.isOwned = true := by
  have hl : ¬ (v.length > u32Max) := not_lt.mpr hv
  have h1 : (Bytes.set h b v).2.1 = Bytes.mk (BytesInner.Owned h.bound (v.length % 2 ^ 32)) := by
    simp [Bytes.set, hl, Bytes.set_unchecked, boxed_slice_to_compact_parts, boxFrom,
      Heap.allocCopy]
  have h2 : (Bytes.set h b v).2.2.mem = writeMem h.mem h.bound v := by
    simp [Bytes.set, hl, Bytes.set_unchecked, boxFrom, Heap.allocCopy, drop_mem]
  refine ⟨by simp [Bytes.set, hl], ?_, by rw [h1]; rfl⟩
  rw [h1, h2]
  have h3 : v.length % 2 ^ 32 = v.length :=
    Nat.mod_eq_of_lt (Nat.lt_of_le_of_lt hv (by decide))
  show readMem (writeMem h.mem h.bound v) h.bound (v.length % 2 ^ 32) = v
  rw [h3, readMem_writeMem]

/-- Witness for C6: setting `[5]` on a concrete Owned value succeeds, reads
back `[5]`, and is Owned. -/
theorem C6_set_roundtrip_witness :
    ([5] : List Nat).length ≤ u32Max
    ∧ ((Bytes.set (Heap.mk (fun _ => 3) 4 []) (Bytes.mk (BytesInner.Owned 1 2)) [5]).1 = .ok ()
       ∧ Bytes.as_bytes
           (Bytes.set (Heap.mk (fun _ => 3) 4 []) (Bytes.mk (BytesInner.Owned 1 2)) [5]).2.2.mem
           (Bytes.set (Heap.mk (fun _ => 3) 4 []) (Bytes.mk (BytesInner.Owned 1 2)) [5]).2.1 = [5]
       ∧ (Bytes.set (Heap.mk (fun _ => 3) 4 []) (Bytes.mk (BytesInner.Owned 1 2)) [5]).2.1.isOwned
           = true) :=
  ⟨by decide, C6_set_roundtrip _ _ _ (by decide)⟩

end TlBytes
